import Mathlib

/-!
Verification of the xml_escpos receipt-rendering engine
(src/xml_escpos/__init__.py), shallowly embedded in Lean 4.

The embedding mirrors the Python source:
a StyleStack of attribute frames, two serializer sinks (direct output and
the two-column line composer), the numeric value formatter, the recursive
tag dispatcher print_elem and the document driver receipt.

Modelling conventions:
  - Python floats are modelled by the exact fraction type PyFloat
    (numerator and positive denominator, no normalisation); all values
    appearing in the development are exactly representable as binary
    doubles, so exact-fraction arithmetic agrees with Python float
    arithmetic on them.
  - Fallible Python operations (raising ValueError or TypeError) return
    Option; a None result models an exception propagating out.
  - Printer-sink calls are collected, in call order, as a list of POp
    values instead of performing device IO.
  - Stacks grow at the head of a Lean list, mirroring Python lists that
    grow at the end, with the top of the stack at the list head.
-/

/-- Exact fraction standing in for a Python float.  The denominator is kept
positive by every constructor used in the development. -/
structure PyFloat where
  num : Int
  den : Int
deriving DecidableEq, Repr

/-- Embeds a Python int into PyFloat, as the float() builtin does. -/
def PyFloat.ofInt (n : Int) : PyFloat := ⟨n, 1⟩

/-- Product of two PyFloat values. -/
def PyFloat.mul (a b : PyFloat) : PyFloat := ⟨a.num * b.num, a.den * b.den⟩

/-- Truncation toward zero, as the Python int() builtin applied to a float. -/
def PyFloat.trunc (v : PyFloat) : Int := Int.tdiv v.num v.den

/-- True when the value is an integer, as math.floor(v) == v in Python. -/
def PyFloat.isIntegral (v : PyFloat) : Bool := v.num % v.den == 0

/-- Rounds v * 10 ^ d to the nearest integer, ties to even: the rounding
used by the fixed-point form of the Python str.format mini-language. -/
def PyFloat.roundScaled (v : PyFloat) (d : Nat) : Int :=
  let num := v.num * ((10 ^ d : Nat) : Int)
  let den := v.den
  let f := Int.fdiv num den
  let r2 := 2 * (num - f * den)
  if r2 < den then f
  else if den < r2 then f + 1
  else if f % 2 = 0 then f else f + 1

/-- Whitespace test matching the regular-expression class backslash-s and
the str.strip default of Python. -/
def isPySpace (c : Char) : Bool :=
  c = ' ' || c = '\t' || c = '\n' || c = '\r' || c = Char.ofNat 11 || c = Char.ofNat 12

/-- Python str.strip(): removes leading and trailing whitespace. -/
def pyStrip (s : String) : String :=
  ⟨((s.data.dropWhile isPySpace).reverse.dropWhile isPySpace).reverse⟩

/-- Worker for collapseWs; the flag records whether the previous kept
character came from a whitespace run. -/
def collapseGo : Bool → List Char → List Char
  | _, [] => []
  | prevWs, c :: rest =>
    if isPySpace c then
      if prevWs then collapseGo true rest else ' ' :: collapseGo true rest
    else c :: collapseGo false rest

/-- Python re.sub over backslash-s-plus replacing each whitespace run by a
single space. -/
def collapseWs (s : String) : String := ⟨collapseGo false s.data⟩

/-- Worker for strReplace on character lists.  Structural recursion on a
fuel argument; every step consumes at least one input character, so fuel
equal to the input length always suffices and the zero-fuel branch is
unreachable from strReplace.  An empty pattern leaves the input unchanged
(the source never replaces an empty pattern). -/
def replaceChars (pat rep : List Char) : Nat → List Char → List Char
  | 0, cs => cs
  | _ + 1, [] => []
  | fuel + 1, c :: rest =>
    if pat.isPrefixOf (c :: rest) ∧ pat ≠ [] then
      rep ++ replaceChars pat rep fuel ((c :: rest).drop pat.length)
    else
      c :: replaceChars pat rep fuel rest

/-- Python str.replace: left-to-right, non-overlapping substring
replacement. -/
def strReplace (s pat rep : String) : String :=
  ⟨replaceChars pat.data rep.data s.data.length s.data⟩

/-- Python substring containment, the in operator on strings. -/
def listContainsSub (pat : List Char) : List Char → Bool
  | [] => pat.isEmpty
  | c :: rest => pat.isPrefixOf (c :: rest) || listContainsSub pat rest

/-- Python substring containment on String. -/
def pyContains (s pat : String) : Bool := listContainsSub pat.data s.data

/-- Python string repetition s * n (empty for n below one). -/
def pyRepeat (s : String) (n : Int) : String := ⟨(List.replicate n.toNat s.data).flatten⟩

/-- Numeric value of a list of decimal digit characters. -/
def digitsToNat (ds : List Char) : Nat :=
  ds.foldl (fun acc c => acc * 10 + (c.toNat - 48)) 0

/-- Splits an optional leading sign off a character list. -/
def parseSign : List Char → Int × List Char
  | '+' :: rest => (1, rest)
  | '-' :: rest => (-1, rest)
  | cs => (1, cs)

/-- Python float() applied to a string: optional sign, decimal digits with
an optional point, optional exponent.  The inf and nan forms are not
representable as fractions and are treated as failures; no value in this
development takes them. -/
def pyParseFloat (s : String) : Option PyFloat :=
  let cs := (pyStrip s).data
  let (sgn, cs1) := parseSign cs
  let (mant, post) := cs1.span (fun c => !(c = 'e' || c = 'E'))
  let expPart : Option Int :=
    match post with
    | [] => some 0
    | _ :: ecs =>
      let (esgn, eds) := parseSign ecs
      if eds ≠ [] && eds.all Char.isDigit then some (esgn * (digitsToNat eds : Int)) else none
  match expPart with
  | none => none
  | some e =>
    let (ip, dotPart) := mant.span (fun c => !(c = '.'))
    let fp : List Char := match dotPart with
      | [] => []
      | _ :: f => f
    if (ip ++ fp) ≠ [] && ip.all Char.isDigit && fp.all Char.isDigit then
      let base : Int := sgn * (digitsToNat (ip ++ fp) : Int)
      if 0 ≤ e then
        some ⟨base * ((10 ^ e.toNat : Nat) : Int), ((10 ^ fp.length : Nat) : Int)⟩
      else
        some ⟨base, ((10 ^ fp.length : Nat) : Int) * ((10 ^ (-e).toNat : Nat) : Int)⟩
    else none

/-- Python int() applied to a string: optional sign and decimal digits
only; anything else raises. -/
def pyParseInt (s : String) : Option Int :=
  let cs := (pyStrip s).data
  let (sgn, ds) := parseSign cs
  if ds ≠ [] && ds.all Char.isDigit then some (sgn * (digitsToNat ds : Int)) else none

/-- Inserts a comma after every third digit of a reversed digit list: the
neutral thousands grouping of the format mini-language. -/
def groupRev : Nat → List Char → List Char
  | _, [] => []
  | k, c :: rest =>
    if k = 3 then ',' :: c :: groupRev 1 rest else c :: groupRev (k + 1) rest

/-- Fixed-point rendering of a float by Python str.format: d fractional
digits (none when d is zero), optional comma grouping of the integer part,
space padding on the left up to the minimum width w. -/
def pyFormatFloat (v : PyFloat) (d : Nat) (w : Nat) (grouped : Bool) : String :=
  let n := v.roundScaled d
  let m := n.natAbs
  let p : Nat := 10 ^ d
  let ipDigits := Nat.toDigits 10 (m / p)
  let ipStr : List Char := if grouped then (groupRev 0 ipDigits.reverse).reverse else ipDigits
  let fds := Nat.toDigits 10 (m % p)
  let frStr : List Char := List.replicate (d - fds.length) '0' ++ fds
  let core : List Char :=
    (if v.num < 0 then ['-'] else []) ++ ipStr ++ (if d = 0 then [] else '.' :: frStr)
  ⟨List.replicate (w - core.length) ' ' ++ core⟩

/-- Long-division digit extraction used by pyFloatRepr. -/
def fracDigitsGo (b : Nat) : Nat → Nat → List Char
  | _, 0 => []
  | r, k + 1 => Char.ofNat (48 + r * 10 / b) :: fracDigitsGo b (r * 10 % b) k

/-- Decimal rendering of a PyFloat, standing in for the Python str() of a
float (up to 17 fractional digits, trailing zeros trimmed).  No claim
exercises this path; it exists so that the string coercion of the style
stack is total. -/
def pyFloatRepr (v : PyFloat) : String :=
  let a := v.num.natAbs
  let b := v.den.natAbs
  let ip := a / b
  let fr := (((fracDigitsGo b (a % b) 17).reverse.dropWhile (fun c => c = '0')).reverse)
  let frStr : List Char := if fr = [] then ['0'] else fr
  (if v.num < 0 then "-" else "") ++ ⟨Nat.toDigits 10 ip⟩ ++ "." ++ ⟨frStr⟩

/-- Typed value held by a style frame: Python str, int or float. -/
inductive StyleVal where
  | str (s : String)
  | int (n : Int)
  | float (f : PyFloat)
deriving DecidableEq, Repr

/-- The utfstr helper of the source: strings pass through, other values
are rendered with str(). -/
def utfstr : StyleVal → String
  | .str s => s
  | .int n => toString n
  | .float f => pyFloatRepr f

/-- Python float() on a dynamic value. -/
def pyFloatOfVal : StyleVal → Option PyFloat
  | .str s => pyParseFloat s
  | .int n => some (PyFloat.ofInt n)
  | .float f => some f

/-- Python int() on a dynamic value. -/
def pyIntOfVal : StyleVal → Option Int
  | .str s => pyParseInt s
  | .int n => some n
  | .float f => some f.trunc

/-- Expects a str value; any other type makes the operations the source
applies to it (replace, concatenation) raise. -/
def asStr : StyleVal → Option String
  | .str s => some s
  | _ => none

/-- Expects an int value, the coerced type of the width, indent and
tabwidth attributes the source does arithmetic on. -/
def asInt : StyleVal → Option Int
  | .int n => some n
  | _ => none

/-- Expects a numeric value, as used where the source multiplies by the
line-ratio attribute. -/
def asNum : StyleVal → Option PyFloat
  | .int n => some (PyFloat.ofInt n)
  | .float f => some f
  | .str _ => none

/-- The format_value helper of the receipt driver.  The declared defaults
of the source are decimals=3, width=0, decimals_separator=".",
thousands_separator=",", autoint=False, symbol="", position="after";
callers of this embedding pass them positionally.  A None result models a
raised exception (non-numeric value, decimals or width). -/
def format_value (value decimals width : StyleVal) (decimals_separator : String)
    (thousands_separator : String) (autoint : Bool) (symbol : String) (position : String) :
    Option String := do
  let di ← pyIntOfVal decimals
  let d0 : Nat := (max 0 di).toNat
  let wi ← pyIntOfVal width
  let w : Nat := (max 0 wi).toNat
  let v ← pyFloatOfVal value
  let d : Nat := if autoint && v.isIntegral then 0 else d0
  let base := pyFormatFloat v d w (thousands_separator ≠ "")
  let r1 := strReplace base "," "COMMA"
  let r2 := strReplace r1 "." "DOT"
  let r3 := strReplace r2 "COMMA" thousands_separator
  let r4 := strReplace r3 "DOT" decimals_separator
  if symbol ≠ "" then
    if position = "after" then some (r4 ++ symbol) else some (symbol ++ r4)
  else some r4


/-- A style frame: the attribute dictionary one element pushed. -/
abbrev Frame : Type := List (String × StyleVal)

/-- The style stack.  The head of the list is the top of the stack (the
Python source appends at the end of its list).  The defaults and types
tables of the source are module-level constants here since every instance
holds the same ones. -/
structure StyleStack where
  stack : List Frame
deriving DecidableEq

/-- Default style values installed by the StyleStack constructor. -/
def style_defaults : List (String × StyleVal) :=
  [("align", .str "left"), ("underline", .str "off"), ("bold", .str "off"),
   ("size", .str "normal"), ("font", .str "a"), ("width", .int 48),
   ("indent", .int 0), ("tabwidth", .int 2), ("bullet", .str " - "),
   ("line-ratio", .float ⟨1, 2⟩), ("color", .str "black"),
   ("value-decimals", .int 2), ("value-symbol", .str ""),
   ("value-symbol-position", .str "after"), ("value-autoint", .str "off"),
   ("value-decimals-separator", .str "."), ("value-thousands-separator", .str ","),
   ("value-width", .int 0)]

/-- Attribute types table: attributes not listed are strings. -/
def style_types : List (String × String) :=
  [("width", "int"), ("indent", "int"), ("tabwidth", "int"),
   ("line-ratio", "float"), ("value-decimals", "int"), ("value-width", "int")]

/-- ESCPOS-relevant style keys snapshotted by get_styles. -/
def escpos_keys : List String := ["align", "underline", "bold", "font", "size", "color"]

/-- The enforce_type method: converts a value to the declared type of the
attribute; a non-numeric value for a numeric attribute raises (None). -/
def enforce_type (attr : String) (val : StyleVal) : Option StyleVal :=
  match List.lookup attr style_types with
  | some "int" => (pyFloatOfVal val).map (fun f => StyleVal.int f.trunc)
  | some "float" => (pyFloatOfVal val).map StyleVal.float
  | _ => some (StyleVal.str (utfstr val))

/-- Coerces every attribute of a pushed or set style dictionary. -/
def coerceFrame (style : List (String × StyleVal)) : Option Frame :=
  style.mapM (fun p => (enforce_type p.1 p.2).map (fun v => (p.1, v)))

/-- The push method: coerces the given style dictionary into a fresh frame
on top of the stack. -/
def StyleStack.push (s : StyleStack) (style : List (String × StyleVal)) : Option StyleStack :=
  (coerceFrame style).map (fun fr => ⟨fr :: s.stack⟩)

/-- Updates one binding of a frame in place (dictionary assignment). -/
def frameSet : List (String × StyleVal) → String → StyleVal → List (String × StyleVal)
  | [], k, v => [(k, v)]
  | p :: rest, k, v => if p.1 = k then (k, v) :: rest else p :: frameSet rest k v

/-- The set method: coerces and writes each attribute into the current top
frame; raises (None) on an empty stack or a failing coercion. -/
def StyleStack.set (s : StyleStack) (style : List (String × StyleVal)) : Option StyleStack :=
  match s.stack with
  | [] => none
  | top :: rest =>
    (style.foldlM (fun fr p => (enforce_type p.1 p.2).map (fun v => frameSet fr p.1 v)) top).map
      (fun top2 => (⟨top2 :: rest⟩ : StyleStack))

/-- The pop method: removes the top frame unless it is the last one. -/
def StyleStack.pop (s : StyleStack) : StyleStack :=
  if 1 < s.stack.length then ⟨s.stack.tail⟩ else s

/-- Search from the top of the stack for the nearest frame defining the
attribute, as the level loop of the get method. -/
def stackFind : List Frame → String → Option StyleVal
  | [], _ => none
  | fr :: rest, k =>
    match List.lookup k (fr : List (String × StyleVal)) with
    | some v => some v
    | none => stackFind rest k

/-- The get method: value of a style at the current stack level, None when
no frame defines it. -/
def StyleStack.get (s : StyleStack) (style : String) : Option StyleVal := stackFind s.stack style

/-- The get_styles method: snapshot of the ESCPOS-relevant attributes. -/
def StyleStack.get_styles (s : StyleStack) : List (String × Option StyleVal) :=
  escpos_keys.map (fun k => (k, s.get k))

/-- The StyleStack constructor: a stack holding the coerced defaults
frame.  Pushing the defaults always succeeds; getD only discharges the
Option. -/
def StyleStack.init : StyleStack :=
  ((⟨[]⟩ : StyleStack).push style_defaults).getD ⟨[]⟩

/-- Parsed markup element: tag, attributes (string-valued, as the XML
parser delivers them), leading text, tail text, ordered children. -/
inductive Element where
  | mk (tag : String) (attrib : List (String × String)) (etext : Option String)
       (tail : Option String) (children : List Element)

/-- Tag name of an element. -/
def Element.tag : Element → String
  | .mk t _ _ _ _ => t

/-- Attribute list of an element. -/
def Element.attrib : Element → List (String × String)
  | .mk _ a _ _ _ => a

/-- Leading text of an element (None when absent). -/
def Element.etext : Element → Option String
  | .mk _ _ t _ _ => t

/-- Tail text of an element (None when absent). -/
def Element.tail : Element → Option String
  | .mk _ _ _ t _ => t

/-- Child list of an element. -/
def Element.children : Element → List Element
  | .mk _ _ _ _ c => c

/-- Abstract printer-sink operation, recorded instead of device IO.  The
cut operation carries whether it was the partial variant; applyStyle
carries the get_styles snapshot the printer would read. -/
inductive POp where
  | text (s : String)
  | applyStyle (sty : List (String × Option StyleVal))
  | setSheetSlipMode
  | setSheetRollMode
  | cut (partialMode : Bool)
  | cashdraw (pin : Nat)
  | printImage (src : String)
  | barcode (code : String) (encoding : String) (height : Option Int)
      (bwidth : Option Int) (pos : Option String) (alignCt : Bool)
deriving DecidableEq, Repr

/-- Entity mode of the direct-output serializer. -/
inductive Mode where
  | block
  | inline
deriving DecidableEq, Repr

/-- State of the XmlLineSerializer: computed widths, column cursors,
the two buffers and the active-side flag. -/
structure XmlLineSerializer where
  tabwidth : Int
  indent : Int
  width : Int
  lwidth : Int
  rwidth : Int
  clwidth : Int
  crwidth : Int
  lbuffer : String
  rbuffer : String
  left : Bool
deriving DecidableEq, Repr

/-- The XmlLineSerializer constructor.  The int() around tabwidth * indent
is the identity on ints; int(width * ratio) truncates toward zero. -/
def XmlLineSerializer.init (indent tabwidth width : Int) (ratio' : PyFloat) : XmlLineSerializer :=
  let w := max 0 (width - tabwidth * indent)
  let lw := (PyFloat.mul (PyFloat.ofInt w) ratio').trunc
  { tabwidth := tabwidth, indent := indent, width := w, lwidth := lw,
    rwidth := max 0 (w - lw), clwidth := 0, crwidth := 0,
    lbuffer := "", rbuffer := "", left := true }

/-- The underscore txt method: write into the active column, truncated to
its remaining capacity; a full column drops the write. -/
def XmlLineSerializer.colTxt (ls : XmlLineSerializer) (txt : String) : XmlLineSerializer :=
  if ls.left then
    if ls.clwidth < ls.lwidth then
      let t : String := ⟨txt.data.take (max 0 (ls.lwidth - ls.clwidth)).toNat⟩
      { ls with lbuffer := ls.lbuffer ++ t, clwidth := ls.clwidth + (t.length : Int) }
    else ls
  else
    if ls.crwidth < ls.rwidth then
      let t : String := ⟨txt.data.take (max 0 (ls.rwidth - ls.crwidth)).toNat⟩
      { ls with rbuffer := ls.rbuffer ++ t, crwidth := ls.crwidth + (t.length : Int) }
    else ls

/-- The start_inline method of the line serializer: a separating space
when the active column already holds content (the style argument of the
source is ignored). -/
def XmlLineSerializer.start_inline (ls : XmlLineSerializer) : XmlLineSerializer :=
  if (ls.left ∧ ls.clwidth ≠ 0) ∨ (¬ ls.left ∧ ls.crwidth ≠ 0) then ls.colTxt " " else ls

/-- The start_block method of the line serializer delegates to
start_inline. -/
def XmlLineSerializer.start_block (ls : XmlLineSerializer) : XmlLineSerializer :=
  ls.start_inline

/-- The start_right method: one-shot switch to the right column. -/
def XmlLineSerializer.start_right (ls : XmlLineSerializer) : XmlLineSerializer :=
  { ls with left := false }

/-- The get_line method: indentation, left buffer, padding to the right
edge, right buffer. -/
def XmlLineSerializer.get_line (ls : XmlLineSerializer) : String :=
  pyRepeat (pyRepeat " " ls.indent) ls.tabwidth ++ ls.lbuffer ++
    pyRepeat " " (ls.width - ls.clwidth - ls.crwidth) ++ ls.rbuffer

/-- Whitespace normalisation of the text methods: collapse runs, strip
ends, drop the call when nothing remains (or when the argument is None or
empty, both falsy). -/
def textPayload (t : Option String) : Option String :=
  match t with
  | none => none
  | some s =>
    if s = "" then none
    else
      let s2 := collapseWs (pyStrip s)
      if s2 = "" then none else some s2

/-- The strclean helper of the receipt driver. -/
def strclean (t : Option String) : String := collapseWs (pyStrip (t.getD ""))

/-- A serializer sink: either the direct-output XmlSerializer (its mode
stack, head on top) or the line-composing XmlLineSerializer. -/
inductive Serializer where
  | xml (stack : List Mode)
  | line (ls : XmlLineSerializer)
deriving DecidableEq, Repr

/-- Printer operations emitted when a style argument is supplied to
start_block or start_inline (the style method forwards the stack to
apply_style). -/
def applyStyleOps (sty : Option StyleStack) : List POp :=
  match sty with
  | some ss => [POp.applyStyle ss.get_styles]
  | none => []

/-- The start_inline method. -/
def Serializer.start_inline (ser : Serializer) (sty : Option StyleStack) : Serializer × List POp :=
  match ser with
  | .xml st => (.xml (Mode.inline :: st), applyStyleOps sty)
  | .line ls => (.line ls.start_inline, [])

/-- The start_block method. -/
def Serializer.start_block (ser : Serializer) (sty : Option StyleStack) : Serializer × List POp :=
  match ser with
  | .xml st => (.xml (Mode.block :: st), applyStyleOps sty)
  | .line ls => (.line ls.start_block, [])

/-- The end_entity method.  The direct-output serializer reads the top
mode first (emitting the block linebreak), then pops unless only the root
mode remains; indexing an empty mode stack would raise (None), though that
state is unreachable from a fresh serializer. -/
def Serializer.end_entity (ser : Serializer) : Option (Serializer × List POp) :=
  match ser with
  | .xml [] => none
  | .xml (m :: rest) =>
    some (.xml (if rest = [] then m :: rest else rest),
          if m = Mode.block then [POp.text "\n"] else [])
  | .line ls => some (.line ls, [])

/-- The text method: whitespace-normalised emission. -/
def Serializer.text (ser : Serializer) (t : Option String) : Serializer × List POp :=
  match textPayload t with
  | none => (ser, [])
  | some s =>
    match ser with
    | .xml st => (.xml st, [POp.text s])
    | .line ls => (.line (ls.colTxt s), [])

/-- The pre method: verbatim emission of truthy strings. -/
def Serializer.pre (ser : Serializer) (t : Option String) : Serializer × List POp :=
  match t with
  | none => (ser, [])
  | some s =>
    if s = "" then (ser, [])
    else
      match ser with
      | .xml st => (.xml st, [POp.text s])
      | .line ls => (.line (ls.colTxt s), [])

/-- The linebreak method. -/
def Serializer.linebreak (ser : Serializer) : Serializer × List POp :=
  match ser with
  | .xml st => (.xml st, [POp.text "\n"])
  | .line ls => (.line ls, [])

/-- Implicit default styles applied by tag name before the literal
attributes. -/
def elem_styles : List (String × List (String × StyleVal)) :=
  [("h1", [("bold", .str "on"), ("size", .str "double")]),
   ("h2", [("size", .str "double")]),
   ("h3", [("bold", .str "on"), ("size", .str "double-height")]),
   ("h4", [("size", .str "double-height")]),
   ("h5", [("bold", .str "on")]),
   ("em", [("font", .str "b")]),
   ("b", [("bold", .str "on")])]

/-- Tags rendered with the block pattern. -/
def blockTags : List String :=
  ["p", "div", "section", "article", "receipt", "header", "footer", "li",
   "h1", "h2", "h3", "h4", "h5"]

/-- Tags rendered with the inline pattern. -/
def inlineTags : List String :=
  ["span", "em", "b", "left", "right"]

/-- Every tag the dispatch chain of print_elem matches on. -/
def recognizedTags : List String :=
  blockTags ++ inlineTags ++
    ["value", "line", "pre", "hr", "br", "img", "barcode", "cut", "partialcut", "cashdraw"]

/-- Injects string-valued XML attributes into the dynamic value type
before they reach the style stack. -/
def attribVals (attrib : List (String × String)) : List (String × StyleVal) :=
  attrib.map (fun p => (p.1, StyleVal.str p.2))

/-- Width for the line and hr tags: the stack width, floor-halved (Python
2 integer division) under a double-width size. -/
def effectiveWidth (ss : StyleStack) : Option Int := do
  let wv ← ss.get "width"
  let w0 ← asInt wv
  if ss.get "size" = some (StyleVal.str "double") ∨
     ss.get "size" = some (StyleVal.str "double-width") then
    some (Int.fdiv w0 2)
  else
    some w0

set_option maxHeartbeats 16000000

/-- Tag-implied default styles step of print_elem: set them when the tag
has an entry, otherwise keep the stack. -/
def applyTagStyles (ss1 : StyleStack) (tag : String) : Option StyleStack :=
  match List.lookup tag elem_styles with
  | some sty => ss1.set sty
  | none => some ss1

/-- Optional integer attribute of the barcode branch: absent attributes
stay absent, present ones go through int() and may raise. -/
def optAttrInt (attrib : List (String × String)) (k : String) : Option (Option Int) :=
  match List.lookup k attrib with
  | some v => (pyParseInt v).map some
  | none => some none

mutual

/-- The print_elem closure of the receipt driver: pushes a style frame,
applies tag defaults then literal attributes, dispatches on the tag,
pops the frame.  Returns the mutated style stack, the mutated serializer
and the printer operations emitted, in order; None models a raised
exception.  Serializer calls are pure pairs of new state and emitted
operations, accessed by projection. -/
def print_elem (ss : StyleStack) (ser : Serializer) (elem : Element) (ind : Int) :
    Option (StyleStack × Serializer × List POp) :=
  match elem with
  | .mk tag attrib etext _tail children => do
    let ss1 ← ss.push []
    let ss2 ← applyTagStyles ss1 tag
    let ss3 ← ss2.set (attribVals attrib)
    if tag ∈ blockTags then do
      let sA := ser.start_block (some ss3)
      let sB := sA.1.text etext
      let x ← print_children ss3 sB.1 children
      let sD ← x.2.1.end_entity
      some (x.1.pop, sD.1, sA.2 ++ sB.2 ++ x.2.2 ++ sD.2)
    else if tag ∈ inlineTags then do
      let sA := ser.start_inline (some ss3)
      let sB := sA.1.text etext
      let x ← print_children ss3 sB.1 children
      let sD ← x.2.1.end_entity
      some (x.1.pop, sD.1, sA.2 ++ sB.2 ++ x.2.2 ++ sD.2)
    else if tag = "value" then do
      let sA := ser.start_inline (some ss3)
      let dec ← ss3.get "value-decimals"
      let wid ← ss3.get "value-width"
      let dsep ← ss3.get "value-decimals-separator" >>= asStr
      let tsep ← ss3.get "value-thousands-separator" >>= asStr
      let aint : Bool := ss3.get "value-autoint" == some (StyleVal.str "on")
      let sym ← ss3.get "value-symbol" >>= asStr
      let pos ← ss3.get "value-symbol-position" >>= asStr
      let vtext ← etext
      let fv ← format_value (StyleVal.str vtext) dec wid dsep tsep aint sym pos
      let sB := sA.1.pre (some fv)
      let sC ← sB.1.end_entity
      some (ss3.pop, sC.1, sA.2 ++ sB.2 ++ sC.2)
    else if tag = "line" then do
      let w ← effectiveWidth ss3
      let iv ← ss3.get "indent" >>= asInt
      let tw ← ss3.get "tabwidth" >>= asInt
      let lr ← ss3.get "line-ratio" >>= asNum
      let ls0 := XmlLineSerializer.init (iv + ind) tw w lr
      let sA := ser.start_block (some ss3)
      let x ← print_line_children ss3 ls0 children ind
      let sB := sA.1.pre (some x.2.1.get_line)
      let sC ← sB.1.end_entity
      some (x.1.pop, sC.1, sA.2 ++ x.2.2 ++ sB.2 ++ sC.2)
    else if tag = "pre" then do
      let sA := ser.start_block (some ss3)
      let sB := sA.1.pre etext
      let sC ← sB.1.end_entity
      some (ss3.pop, sC.1, sA.2 ++ sB.2 ++ sC.2)
    else if tag = "hr" then do
      let w ← effectiveWidth ss3
      let sA := ser.start_block (some ss3)
      let sB := sA.1.text (some (pyRepeat "-" w))
      let sC ← sB.1.end_entity
      some (ss3.pop, sC.1, sA.2 ++ sB.2 ++ sC.2)
    else if tag = "br" then do
      let sA := ser.linebreak
      some (ss3.pop, sA.1, sA.2)
    else if tag = "img" then
      match List.lookup "src" attrib with
      | some src =>
        if pyContains src "data:" then some (ss3.pop, ser, [POp.printImage src])
        else some (ss3.pop, ser, [])
      | none => some (ss3.pop, ser, [])
    else if tag = "barcode" then
      match List.lookup "encoding" attrib with
      | some enc => do
        let sA := ser.start_block (some ss3)
        let alignCt : Bool := match List.lookup "align_ct" attrib with
          | some v => v == "on"
          | none => false
        let height ← optAttrInt attrib "height"
        let bwidth ← optAttrInt attrib "width"
        let pos := List.lookup "pos" attrib
        let sB ← sA.1.end_entity
        some (ss3.pop, sB.1,
          sA.2 ++ [POp.barcode (strclean etext) enc height bwidth pos alignCt] ++ sB.2)
      | none => some (ss3.pop, ser, [])
    else if tag = "cut" then
      some (ss3.pop, ser, [POp.cut false])
    else if tag = "partialcut" then
      some (ss3.pop, ser, [POp.cut true])
    else if tag = "cashdraw" then
      some (ss3.pop, ser, [POp.cashdraw 2, POp.cashdraw 5])
    else
      some (ss3.pop, ser, [])
termination_by structural elem

/-- Child loop of the block and inline branches: render the child (with
the default indent of zero, as the source omits the argument), then emit
its tail text in a fresh inline entity. -/
def print_children (ss : StyleStack) (ser : Serializer) (cs : List Element) :
    Option (StyleStack × Serializer × List POp) :=
  match cs with
  | [] => some (ss, ser, [])
  | c :: rest => do
    let x ← print_elem ss ser c 0
    let sB := x.2.1.start_inline (some x.1)
    let sC := sB.1.text c.tail
    let sD ← sC.1.end_entity
    let y ← print_children x.1 sD.1 rest
    some (y.1, y.2.1, x.2.2 ++ sB.2 ++ sC.2 ++ sD.2 ++ y.2.2)
termination_by structural cs

/-- Child loop of the line branch: only the left and right children are
rendered, into the nested line serializer; a right child first switches
the active column.  The sinks preserve their own constructor, so the xml
fallback cases are unreachable. -/
def print_line_children (ss : StyleStack) (ls : XmlLineSerializer) (cs : List Element)
    (ind : Int) : Option (StyleStack × XmlLineSerializer × List POp) :=
  match cs with
  | [] => some (ss, ls, [])
  | c :: rest =>
    if c.tag = "left" then do
      let x ← print_elem ss (Serializer.line ls) c ind
      match x.2.1 with
      | .line ls1 => do
        let y ← print_line_children x.1 ls1 rest ind
        some (y.1, y.2.1, x.2.2 ++ y.2.2)
      | .xml _ => none
    else if c.tag = "right" then do
      let x ← print_elem ss (Serializer.line ls.start_right) c ind
      match x.2.1 with
      | .line ls1 => do
        let y ← print_line_children x.1 ls1 rest ind
        some (y.1, y.2.1, x.2.2 ++ y.2.2)
      | .xml _ => none
    else
      print_line_children ss ls rest ind
termination_by structural cs

end

/-- Sheet-mode setup operation of the receipt driver. -/
def sheet_ops (root : Element) : List POp :=
  if List.lookup "sheet" root.attrib = some "slip" then [POp.setSheetSlipMode]
  else [POp.setSheetRollMode]

/-- The trailing-cut test of the receipt driver: cut attribute absent, or
present with the literal value true. -/
def trailing_cut (root : Element) : Bool :=
  !(List.lookup "cut" root.attrib).isSome || List.lookup "cut" root.attrib == some "true"

/-- The receipt driver, given the already parsed root element: sheet-mode
setup, full traversal, then the conditional trailing cut. -/
def receipt (root : Element) : Option (List POp) := do
  let x ← print_elem StyleStack.init (Serializer.xml [Mode.block]) root 0
  some (sheet_ops root ++ x.2.2 ++ (if trailing_cut root then [POp.cut false] else []))

/-- Counts the cut operations (full or partial) in an operation list. -/
def countCutOps (ops : List POp) : Nat :=
  ops.countP (fun o => match o with
    | POp.cut _ => true
    | _ => false)

/-- Counts the cashdraw operations in an operation list. -/
def countCashdrawOps (ops : List POp) : Nat :=
  ops.countP (fun o => match o with
    | POp.cashdraw _ => true
    | _ => false)

/-- Pushing the empty dictionary always succeeds and conses an empty
frame. -/
theorem StyleStack.push_nil (ss : StyleStack) : ss.push [] = some ⟨[] :: ss.stack⟩ := rfl

/-- A successful set only rewrites the top frame. -/
theorem StyleStack.set_shape (top : Frame) (rest : List Frame) (sty : List (String × StyleVal))
    (ss' : StyleStack) (h : StyleStack.set ⟨top :: rest⟩ sty = some ss') :
    ∃ top', ss' = ⟨top' :: rest⟩ := by
  unfold StyleStack.set at h
  simp only [Option.map_eq_some'] at h
  obtain ⟨top2, _, heq⟩ := h
  exact ⟨top2, heq.symm⟩

/-- Popping a stack with at least two frames removes the top one; stated
through an arbitrary stack value below the pushed frame. -/
theorem StyleStack.pop_cons_of_ne (fr : Frame) (ss : StyleStack) (hne : ss.stack ≠ []) :
    (⟨fr :: ss.stack⟩ : StyleStack).pop = ss := by
  obtain ⟨st⟩ := ss
  cases st with
  | nil => exact absurd rfl hne
  | cons b t =>
    simp only [StyleStack.pop, List.length_cons, List.tail_cons]
    rw [if_pos]
    omega

/-- A successful applyTagStyles only rewrites the top frame. -/
theorem applyTagStyles_shape (top : Frame) (rest : List Frame) (tag : String)
    (ss' : StyleStack) (h : applyTagStyles ⟨top :: rest⟩ tag = some ss') :
    ∃ top', ss' = ⟨top' :: rest⟩ := by
  unfold applyTagStyles at h
  cases hl : List.lookup tag elem_styles with
  | some sty =>
    rw [hl] at h
    exact StyleStack.set_shape _ _ _ _ h
  | none =>
    rw [hl] at h
    simp only [Option.some.injEq] at h
    exact ⟨top, h.symm⟩

/-- Joint stack-preservation statement for the three traversal functions:
a completed traversal returns the style stack it was given (push and pop
calls balance exactly), provided the stack is nonempty on entry. -/
theorem stack_preserved : ∀ n : Nat,
    (∀ e : Element, sizeOf e ≤ n → ∀ ss ser ind r,
        print_elem ss ser e ind = some r → ss.stack ≠ [] → r.1 = ss) ∧
    (∀ cs : List Element, sizeOf cs ≤ n → ∀ ss ser r,
        print_children ss ser cs = some r → ss.stack ≠ [] → r.1 = ss) ∧
    (∀ cs : List Element, sizeOf cs ≤ n → ∀ ss ls ind r,
        print_line_children ss ls cs ind = some r → ss.stack ≠ [] → r.1 = ss) := by
  intro n
  induction n using Nat.strong_induction_on with
  | _ n IH =>
  refine ⟨?_, ?_, ?_⟩
  · intro e hsz ss ser ind r h hne
    obtain ⟨tag, attrib, etext, tl, children⟩ := e
    have hchild : sizeOf children < n := by
      simp only [Element.mk.sizeOf_spec] at hsz
      omega
    rw [print_elem] at h
    rw [StyleStack.push_nil] at h
    simp only [Option.pure_def, Option.bind_eq_bind, Option.some_bind] at h
    rw [Option.bind_eq_some] at h
    obtain ⟨ss2, hss2eq, h⟩ := h
    obtain ⟨top2, hss2⟩ := applyTagStyles_shape _ _ _ _ hss2eq
    rw [Option.bind_eq_some] at h
    obtain ⟨ss3, hset3, h⟩ := h
    rw [hss2] at hset3
    obtain ⟨top3, hss3⟩ := StyleStack.set_shape _ _ _ _ hset3
    have hne3 : ss3.stack ≠ [] := by rw [hss3]; simp
    have hpop : ss3.pop = ss := by
      rw [hss3]
      exact StyleStack.pop_cons_of_ne top3 ss hne
    by_cases hb : tag ∈ blockTags
    · rw [if_pos hb] at h
      simp only [Option.bind_eq_some, Option.some.injEq] at h
      obtain ⟨x, hx, sD, hsD, hr⟩ := h
      have hx1 : x.1 = ss3 := (IH _ hchild).2.1 children le_rfl ss3 _ x hx hne3
      subst hr
      show x.1.pop = ss
      rw [hx1]
      exact hpop
    rw [if_neg hb] at h
    by_cases hi : tag ∈ inlineTags
    · rw [if_pos hi] at h
      simp only [Option.bind_eq_some, Option.some.injEq] at h
      obtain ⟨x, hx, sD, hsD, hr⟩ := h
      have hx1 : x.1 = ss3 := (IH _ hchild).2.1 children le_rfl ss3 _ x hx hne3
      subst hr
      show x.1.pop = ss
      rw [hx1]
      exact hpop
    rw [if_neg hi] at h
    by_cases hv : tag = "value"
    · rw [if_pos hv] at h
      simp only [Option.bind_eq_some, Option.some.injEq] at h
      obtain ⟨dec, _, wid, _, dsep, _, tsep, _, sym, _, pos, _, vtext, _, fv, _, sC, _, hr⟩ := h
      subst hr
      exact hpop
    rw [if_neg hv] at h
    by_cases hln : tag = "line"
    · rw [if_pos hln] at h
      simp only [Option.bind_eq_some, Option.some.injEq] at h
      obtain ⟨w, _, iv, _, tw, _, lr, _, x, hx, sC, _, hr⟩ := h
      have hx1 : x.1 = ss3 := (IH _ hchild).2.2 children le_rfl ss3 _ ind x hx hne3
      subst hr
      show x.1.pop = ss
      rw [hx1]
      exact hpop
    rw [if_neg hln] at h
    by_cases hpre : tag = "pre"
    · rw [if_pos hpre] at h
      simp only [Option.bind_eq_some, Option.some.injEq] at h
      obtain ⟨sC, _, hr⟩ := h
      subst hr
      exact hpop
    rw [if_neg hpre] at h
    by_cases hhr : tag = "hr"
    · rw [if_pos hhr] at h
      simp only [Option.bind_eq_some, Option.some.injEq] at h
      obtain ⟨w, _, sC, _, hr⟩ := h
      subst hr
      exact hpop
    rw [if_neg hhr] at h
    by_cases hbr : tag = "br"
    · rw [if_pos hbr] at h
      simp only [Option.some.injEq] at h
      subst h
      exact hpop
    rw [if_neg hbr] at h
    by_cases him : tag = "img"
    · rw [if_pos him] at h
      split at h
      · split at h <;> (simp only [Option.some.injEq] at h; subst h; exact hpop)
      · simp only [Option.some.injEq] at h
        subst h
        exact hpop
    rw [if_neg him] at h
    by_cases hbar : tag = "barcode"
    · rw [if_pos hbar] at h
      split at h
      · simp only [Option.bind_eq_some, Option.some.injEq] at h
        obtain ⟨height, _, bwidth, _, sB, _, hr⟩ := h
        subst hr
        exact hpop
      · simp only [Option.some.injEq] at h
        subst h
        exact hpop
    rw [if_neg hbar] at h
    by_cases hcut : tag = "cut"
    · rw [if_pos hcut] at h
      simp only [Option.some.injEq] at h
      subst h
      exact hpop
    rw [if_neg hcut] at h
    by_cases hpc : tag = "partialcut"
    · rw [if_pos hpc] at h
      simp only [Option.some.injEq] at h
      subst h
      exact hpop
    rw [if_neg hpc] at h
    by_cases hcd : tag = "cashdraw"
    · rw [if_pos hcd] at h
      simp only [Option.some.injEq] at h
      subst h
      exact hpop
    rw [if_neg hcd] at h
    simp only [Option.some.injEq] at h
    subst h
    exact hpop
  · intro cs hsz ss ser r h hne
    cases cs with
    | nil =>
      simp only [print_children, Option.some.injEq] at h
      subst h
      rfl
    | cons c rest =>
      have hc : sizeOf c < n := by
        simp only [List.cons.sizeOf_spec] at hsz
        omega
      have hrest : sizeOf rest < n := by
        simp only [List.cons.sizeOf_spec] at hsz
        omega
      simp only [print_children] at h
      simp only [Option.pure_def, Option.bind_eq_bind, Option.bind_eq_some,
        Option.some.injEq] at h
      obtain ⟨x, hx, sD, hsD, y, hy, hr⟩ := h
      have hx1 : x.1 = ss := (IH _ hc).1 c le_rfl ss ser 0 x hx hne
      have hy1 : y.1 = x.1 := (IH _ hrest).2.1 rest le_rfl x.1 sD.1 y hy (by rw [hx1]; exact hne)
      subst hr
      show y.1 = ss
      rw [hy1, hx1]
  · intro cs hsz ss ls ind r h hne
    cases cs with
    | nil =>
      simp only [print_line_children, Option.some.injEq] at h
      subst h
      rfl
    | cons c rest =>
      have hc : sizeOf c < n := by
        simp only [List.cons.sizeOf_spec] at hsz
        omega
      have hrest : sizeOf rest < n := by
        simp only [List.cons.sizeOf_spec] at hsz
        omega
      simp only [print_line_children] at h
      by_cases hl : c.tag = "left"
      · rw [if_pos hl] at h
        simp only [Option.pure_def, Option.bind_eq_bind, Option.bind_eq_some] at h
        obtain ⟨x, hx, hmatch⟩ := h
        have hx1 : x.1 = ss := (IH _ hc).1 c le_rfl ss _ ind x hx hne
        split at hmatch
        · rename_i ls1 hsnk
          simp only [Option.bind_eq_some, Option.some.injEq] at hmatch
          obtain ⟨y, hy, hr⟩ := hmatch
          have hy1 : y.1 = x.1 :=
            (IH _ hrest).2.2 rest le_rfl x.1 ls1 ind y hy (by rw [hx1]; exact hne)
          subst hr
          show y.1 = ss
          rw [hy1, hx1]
        · simp at hmatch
      rw [if_neg hl] at h
      by_cases hr' : c.tag = "right"
      · rw [if_pos hr'] at h
        simp only [Option.pure_def, Option.bind_eq_bind, Option.bind_eq_some] at h
        obtain ⟨x, hx, hmatch⟩ := h
        have hx1 : x.1 = ss := (IH _ hc).1 c le_rfl ss _ ind x hx hne
        split at hmatch
        · rename_i ls1 hsnk
          simp only [Option.bind_eq_some, Option.some.injEq] at hmatch
          obtain ⟨y, hy, hr⟩ := hmatch
          have hy1 : y.1 = x.1 :=
            (IH _ hrest).2.2 rest le_rfl x.1 ls1 ind y hy (by rw [hx1]; exact hne)
          subst hr
          show y.1 = ss
          rw [hy1, hx1]
        · simp at hmatch
      rw [if_neg hr'] at h
      exact (IH _ hrest).2.2 rest le_rfl ss ls ind r h hne

/-- Corollary of stack_preserved for a single element. -/
theorem print_elem_stack_eq (ss : StyleStack) (ser : Serializer) (e : Element) (ind : Int)
    (r : StyleStack × Serializer × List POp) (h : print_elem ss ser e ind = some r)
    (hne : ss.stack ≠ []) : r.1 = ss :=
  (stack_preserved (sizeOf e)).1 e le_rfl ss ser ind r h hne

/-- Setting the empty dictionary leaves a nonempty stack unchanged. -/
theorem StyleStack.set_nil (top : Frame) (rest : List Frame) :
    StyleStack.set ⟨top :: rest⟩ [] = some ⟨top :: rest⟩ := rfl

/-- countCutOps distributes over append. -/
theorem countCutOps_append (a b : List POp) :
    countCutOps (a ++ b) = countCutOps a + countCutOps b :=
  List.countP_append _ _ _

/-- The sheet-mode setup emits no cut operation. -/
theorem countCutOps_sheet_ops (root : Element) : countCutOps (sheet_ops root) = 0 := by
  unfold sheet_ops
  split <;> rfl

/-- C1 (corrected claim): the driver appends its trailing cut exactly when
the root has no cut attribute or its value is the literal string true; any
other value, not only the literal false, suppresses the trailing cut.  The
cut count of the whole receipt is the traversal's own count plus one
exactly in the trailing-cut case, and the appended cut is the last
operation. -/
theorem C1_amended (root : Element) (r : StyleStack × Serializer × List POp)
    (h : print_elem StyleStack.init (Serializer.xml [Mode.block]) root 0 = some r) :
    (receipt root).map countCutOps =
      some (countCutOps r.2.2 + (if trailing_cut root then 1 else 0)) ∧
    (trailing_cut root = true ↔
      (List.lookup "cut" root.attrib = none ∨ List.lookup "cut" root.attrib = some "true")) ∧
    (trailing_cut root = true →
      receipt root = some ((sheet_ops root ++ r.2.2) ++ [POp.cut false])) ∧
    (trailing_cut root = false → receipt root = some (sheet_ops root ++ r.2.2)) := by
  have hrec : receipt root =
      some (sheet_ops root ++ r.2.2 ++ (if trailing_cut root then [POp.cut false] else [])) := by
    unfold receipt
    rw [h]
    rfl
  refine ⟨?_, ?_, ?_, ?_⟩
  · rw [hrec]
    simp only [Option.map_some']
    rw [countCutOps_append, countCutOps_append, countCutOps_sheet_ops]
    cases htc : trailing_cut root <;> simp [htc, countCutOps]
  · cases hl : List.lookup "cut" root.attrib with
    | none => simp [trailing_cut, hl]
    | some v => simp [trailing_cut, hl]
  · intro ht
    rw [hrec]
    simp [ht, List.append_assoc]
  · intro ht
    rw [hrec]
    simp [ht]

/-- C1 counterexample: with the root attribute cut equal to yes — a value
other than the literal false — the claim demands exactly one trailing cut,
but the driver emits zero cut operations. -/
theorem C1_counterexample :
    receipt (Element.mk "receipt" [("cut", "yes")] none none []) =
      some [POp.setSheetRollMode, POp.applyStyle StyleStack.init.get_styles, POp.text "\n"] ∧
    (receipt (Element.mk "receipt" [("cut", "yes")] none none [])).map countCutOps =
      some 0 := by
  constructor
  · decide
  · decide

/-- C1 witness: a root with no cut attribute gets exactly one cut. -/
theorem C1_witness :
    (receipt (Element.mk "receipt" [] none none [])).map countCutOps = some 1 := by
  have hsome : print_elem StyleStack.init (Serializer.xml [Mode.block])
      (Element.mk "receipt" [] none none []) 0 =
      some (StyleStack.init, Serializer.xml [Mode.block],
        [POp.applyStyle StyleStack.init.get_styles, POp.text "\n"]) := by decide
  have h := (C1_amended (Element.mk "receipt" [] none none []) _ hsome).1
  rw [h]
  decide

/-- C2 counterexample: with the declared defaults of format_value (in
particular decimals equal to three), the call of the claim returns the
string with three fractional digits, not two. -/
theorem C2_counterexample :
    format_value (StyleVal.int 5) (StyleVal.int 3) (StyleVal.int 0) "." "," false "$" "before" =
      some "$5.000" ∧
    format_value (StyleVal.int 5) (StyleVal.int 3) (StyleVal.int 0) "." "," false "$" "before" ≠
      some "$5.00" := by
  constructor
  · decide
  · decide

/-- C2 (corrected claim): format_value of five with symbol before and all
the declared defaults of the source signature (decimals three, width zero,
point and comma separators, autoint off) returns the four-fractional-form
string with the symbol prepended. -/
theorem C2_amended_default :
    format_value (StyleVal.int 5) (StyleVal.int 3) (StyleVal.int 0) "." "," false "$" "before" =
      some "$5.000" := by decide

/-- C3 (confirmed): the two separator substitutions transliterate through
the COMMA and DOT placeholders, so they do not collide even when the
caller swaps the conventional roles.  The fraction 2469 over 2 is the
Python float 1234.5. -/
theorem C3_separator_swap :
    format_value (StyleVal.float ⟨2469, 2⟩) (StyleVal.int 2) (StyleVal.int 0) "." "," false ""
      "after" = some "1,234.50" ∧
    format_value (StyleVal.float ⟨2469, 2⟩) (StyleVal.int 2) (StyleVal.int 0) "," "." false ""
      "after" = some "1.234,50" := by
  constructor
  · decide
  · decide

/-- C4 (confirmed): the style stack holds the single defaults frame after
construction, pop removes the top frame only when more than one frame
remains and never drops the length below one, and every completed
print_elem traversal returns with the stack length it entered with. -/
theorem C4_stack_balance :
    StyleStack.init.stack.length = 1 ∧
    (∀ ss : StyleStack, ss.stack.length ≤ 1 → ss.pop = ss) ∧
    (∀ ss : StyleStack, 1 < ss.stack.length → ss.pop.stack = ss.stack.tail) ∧
    (∀ ss : StyleStack, 1 ≤ ss.stack.length → 1 ≤ ss.pop.stack.length) ∧
    (∀ (ss : StyleStack) (ser : Serializer) (e : Element) (ind : Int)
        (r : StyleStack × Serializer × List POp),
        print_elem ss ser e ind = some r → 1 ≤ ss.stack.length →
        r.1.stack.length = ss.stack.length) := by
  refine ⟨rfl, ?_, ?_, ?_, ?_⟩
  · intro ss h
    unfold StyleStack.pop
    rw [if_neg]
    omega
  · intro ss h
    unfold StyleStack.pop
    rw [if_pos h]
  · intro ss h
    unfold StyleStack.pop
    split
    · rename_i hgt
      simp only [List.length_tail]
      omega
    · exact h
  · intro ss ser e ind r h hlen
    have hne : ss.stack ≠ [] := by
      intro hc
      rw [hc] at hlen
      simp at hlen
    rw [print_elem_stack_eq ss ser e ind r h hne]

/-- C4 witness: a concrete one-paragraph traversal returns stack length
one, the length it entered with. -/
theorem C4_witness :
    (print_elem StyleStack.init (Serializer.xml [Mode.block])
        (Element.mk "p" [] (some "hi") none []) 0).map (fun r => r.1.stack.length) =
      some 1 := by
  have hsome : print_elem StyleStack.init (Serializer.xml [Mode.block])
      (Element.mk "p" [] (some "hi") none []) 0 =
      some (StyleStack.init, Serializer.xml [Mode.block],
        [POp.applyStyle StyleStack.init.get_styles, POp.text "hi", POp.text "\n"]) := by decide
  have h := C4_stack_balance.2.2.2.2 StyleStack.init (Serializer.xml [Mode.block])
      (Element.mk "p" [] (some "hi") none []) 0 _ hsome (by decide)
  rw [hsome, Option.map_some', h]
  rfl

/-- C8 counterexample: a single cashdraw element produces two cashdraw
calls on the printer (one per drawer pin), not exactly one. -/
theorem C8_counterexample :
    (print_elem StyleStack.init (Serializer.xml [Mode.block])
        (Element.mk "cashdraw" [] none none []) 0).map (fun r => countCashdrawOps r.2.2) =
      some 2 ∧
    ¬((print_elem StyleStack.init (Serializer.xml [Mode.block])
        (Element.mk "cashdraw" [] none none []) 0).map (fun r => countCashdrawOps r.2.2) =
      some 1) := by
  constructor
  · decide
  · decide

/-- C8 (corrected claim): a cashdraw element makes exactly two direct
cashdraw calls, with pins two and five in that order; a cut element makes
exactly one full-cut call and a partialcut element exactly one
partial-cut call, with no other effect than the balanced push and pop. -/
theorem C8_amended_one_shot (ss : StyleStack) (ser : Serializer) (ind : Int)
    (hne : ss.stack ≠ []) :
    print_elem ss ser (Element.mk "cashdraw" [] none none []) ind =
      some (ss, ser, [POp.cashdraw 2, POp.cashdraw 5]) ∧
    print_elem ss ser (Element.mk "cut" [] none none []) ind =
      some (ss, ser, [POp.cut false]) ∧
    print_elem ss ser (Element.mk "partialcut" [] none none []) ind =
      some (ss, ser, [POp.cut true]) := by
  have h1 : print_elem ss ser (Element.mk "cashdraw" [] none none []) ind =
      some ((⟨[] :: ss.stack⟩ : StyleStack).pop, ser, [POp.cashdraw 2, POp.cashdraw 5]) := rfl
  have h2 : print_elem ss ser (Element.mk "cut" [] none none []) ind =
      some ((⟨[] :: ss.stack⟩ : StyleStack).pop, ser, [POp.cut false]) := rfl
  have h3 : print_elem ss ser (Element.mk "partialcut" [] none none []) ind =
      some ((⟨[] :: ss.stack⟩ : StyleStack).pop, ser, [POp.cut true]) := rfl
  rw [StyleStack.pop_cons_of_ne [] ss hne] at h1 h2 h3
  exact ⟨h1, h2, h3⟩

/-- C8 witness: the corrected statement applied at the default stack and a
fresh serializer. -/
theorem C8_witness :
    print_elem StyleStack.init (Serializer.xml [Mode.block])
      (Element.mk "cut" [] none none []) 0 =
      some (StyleStack.init, Serializer.xml [Mode.block], [POp.cut false]) :=
  (C8_amended_one_shot StyleStack.init (Serializer.xml [Mode.block]) 0 (by decide)).2.1

/-- C10 (confirmed): end_entity on a direct-output serializer whose mode
stack holds only the permanent root block mode still emits one line
terminator — the linebreak is decided from the top mode before the guarded
pop — and leaves the mode stack unchanged at length one. -/
theorem C10_end_entity_root :
    Serializer.end_entity (Serializer.xml [Mode.block]) =
      some (Serializer.xml [Mode.block], [POp.text "\n"]) := rfl

/-- Unrecognized tags reduce print_elem to the frame push, the attribute
coercion and the frame pop, with no serializer or printer activity and no
reference to the children. -/
theorem unknown_tag_eq (ss : StyleStack) (ser : Serializer) (ind : Int) (tag : String)
    (attrib : List (String × String)) (etext tl : Option String) (children : List Element)
    (htag : tag ∉ recognizedTags) :
    print_elem ss ser (Element.mk tag attrib etext tl children) ind =
      (applyTagStyles ⟨[] :: ss.stack⟩ tag).bind (fun ss2 =>
        (ss2.set (attribVals attrib)).bind (fun ss3 => some (ss3.pop, ser, []))) := by
  have hmem : ∀ t : String, t ∈ blockTags ∨ t ∈ inlineTags ∨
      t ∈ ["value", "line", "pre", "hr", "br", "img", "barcode", "cut", "partialcut",
        "cashdraw"] → t ∈ recognizedTags := by
    intro t ht
    simp only [recognizedTags, List.mem_append]
    tauto
  have hb : ¬(tag ∈ blockTags) := fun hm => htag (hmem tag (Or.inl hm))
  have hi : ¬(tag ∈ inlineTags) := fun hm => htag (hmem tag (Or.inr (Or.inl hm)))
  have hv : ¬(tag = "value") := fun he => htag (hmem tag (Or.inr (Or.inr (by rw [he]; decide))))
  have hln : ¬(tag = "line") := fun he => htag (hmem tag (Or.inr (Or.inr (by rw [he]; decide))))
  have hpre : ¬(tag = "pre") := fun he => htag (hmem tag (Or.inr (Or.inr (by rw [he]; decide))))
  have hhr : ¬(tag = "hr") := fun he => htag (hmem tag (Or.inr (Or.inr (by rw [he]; decide))))
  have hbr : ¬(tag = "br") := fun he => htag (hmem tag (Or.inr (Or.inr (by rw [he]; decide))))
  have him : ¬(tag = "img") := fun he => htag (hmem tag (Or.inr (Or.inr (by rw [he]; decide))))
  have hbar : ¬(tag = "barcode") :=
    fun he => htag (hmem tag (Or.inr (Or.inr (by rw [he]; decide))))
  have hcut : ¬(tag = "cut") := fun he => htag (hmem tag (Or.inr (Or.inr (by rw [he]; decide))))
  have hpc : ¬(tag = "partialcut") :=
    fun he => htag (hmem tag (Or.inr (Or.inr (by rw [he]; decide))))
  have hcd : ¬(tag = "cashdraw") :=
    fun he => htag (hmem tag (Or.inr (Or.inr (by rw [he]; decide))))
  rw [print_elem, StyleStack.push_nil]
  simp only [Option.pure_def, Option.bind_eq_bind, Option.some_bind, if_neg hb, if_neg hi,
    if_neg hv, if_neg hln, if_neg hpre, if_neg hhr, if_neg hbr, if_neg him, if_neg hbar,
    if_neg hcut, if_neg hpc, if_neg hcd]

/-- C7 (corrected claim): an element with an unrecognized tag produces no
printer operation, leaves the serializer untouched, never visits its
children (the result is identical with the children removed), and the
style stack comes back as it went in; however the traversal completes
without error only when the element's attribute coercion succeeds — a
non-numeric value under a numeric-typed attribute raises regardless of
the tag. -/
theorem C7_amended_unknown_tag :
    (∀ (ss : StyleStack) (ser : Serializer) (ind : Int) (tag : String)
        (attrib : List (String × String)) (etext tl : Option String) (children : List Element),
        tag ∉ recognizedTags →
        print_elem ss ser (Element.mk tag attrib etext tl children) ind =
          print_elem ss ser (Element.mk tag attrib etext tl []) ind) ∧
    (∀ (ss : StyleStack) (ser : Serializer) (ind : Int) (tag : String)
        (attrib : List (String × String)) (etext tl : Option String) (children : List Element)
        (r : StyleStack × Serializer × List POp),
        tag ∉ recognizedTags →
        print_elem ss ser (Element.mk tag attrib etext tl children) ind = some r →
        r.2.1 = ser ∧ r.2.2 = [] ∧ (ss.stack ≠ [] → r.1 = ss)) := by
  constructor
  · intro ss ser ind tag attrib etext tl children htag
    rw [unknown_tag_eq ss ser ind tag attrib etext tl children htag,
      unknown_tag_eq ss ser ind tag attrib etext tl [] htag]
  · intro ss ser ind tag attrib etext tl children r htag h
    rw [unknown_tag_eq ss ser ind tag attrib etext tl children htag] at h
    rw [Option.bind_eq_some] at h
    obtain ⟨ss2, h2, h⟩ := h
    rw [Option.bind_eq_some] at h
    obtain ⟨ss3, h3, h⟩ := h
    simp only [Option.some.injEq] at h
    subst h
    refine ⟨rfl, rfl, ?_⟩
    intro hne
    obtain ⟨top2, hss2⟩ := applyTagStyles_shape [] ss.stack tag ss2 h2
    rw [hss2] at h3
    obtain ⟨top3, hss3⟩ := StyleStack.set_shape _ _ _ _ h3
    show ss3.pop = ss
    rw [hss3]
    exact StyleStack.pop_cons_of_ne top3 ss hne

/-- C7 counterexample: an unrecognized tag can still raise — a non-numeric
width attribute aborts the render even though the tag is unknown, so the
original claim that no unrecognized element raises is false. -/
theorem C7_counterexample :
    print_elem StyleStack.init (Serializer.xml [Mode.block])
      (Element.mk "mysterytag" [("width", "oops")] none none []) 0 = none ∧
    "mysterytag" ∉ recognizedTags := by
  constructor
  · decide
  · decide

/-- C7 witness: a concrete unknown element with a child renders identically
to the same element without the child. -/
theorem C7_witness :
    print_elem StyleStack.init (Serializer.xml [Mode.block])
      (Element.mk "mysterytag" [] (some "zap") none
        [Element.mk "p" [] (some "child") none []]) 0 =
      print_elem StyleStack.init (Serializer.xml [Mode.block])
        (Element.mk "mysterytag" [] (some "zap") none []) 0 :=
  C7_amended_unknown_tag.1 StyleStack.init (Serializer.xml [Mode.block]) 0 "mysterytag" []
    (some "zap") none [Element.mk "p" [] (some "child") none []] (by decide)

/-- Auxiliary for C9: when no frame of the stack defines the name, the
search returns the absence marker. -/
theorem stackFind_none (stack : List Frame) (name : String) :
    (∀ fr ∈ stack, List.lookup name fr = none) → stackFind stack name = none := by
  induction stack with
  | nil => intro _; rfl
  | cons fr rest ih =>
    intro h
    have h1 : List.lookup name fr = none := h fr (by simp)
    simp only [stackFind, h1]
    exact ih (fun fr2 hm => h fr2 (by simp [hm]))

/-- C9 (confirmed): get returns the value of the nearest (topmost) frame
defining the attribute, searching downward; with no overriding frame the
root default answers (width defaults to 48), and a name no frame defines
yields the absence marker None. -/
theorem C9_style_lookup :
    (∀ (fr : Frame) (rest : List Frame) (name : String) (v : StyleVal),
        List.lookup name fr = some v →
        StyleStack.get ⟨fr :: rest⟩ name = some v) ∧
    (∀ (fr : Frame) (rest : List Frame) (name : String),
        List.lookup name fr = none →
        StyleStack.get ⟨fr :: rest⟩ name = StyleStack.get ⟨rest⟩ name) ∧
    (∀ (ss : StyleStack) (name : String),
        (∀ fr ∈ ss.stack, List.lookup name fr = none) → ss.get name = none) ∧
    StyleStack.init.get "width" = some (StyleVal.int 48) ∧
    (StyleStack.init.push [("bold", StyleVal.str "on")]).bind (fun s2 => s2.get "width") =
      some (StyleVal.int 48) ∧
    StyleStack.init.get "mystery-style" = none := by
  refine ⟨?_, ?_, ?_, by decide, by decide, by decide⟩
  · intro fr rest name v h
    simp only [StyleStack.get, stackFind, h]
  · intro fr rest name h
    simp only [StyleStack.get, stackFind, h]
  · intro ss name h
    obtain ⟨st⟩ := ss
    exact stackFind_none st name h

/-- C9 witness: the topmost definition wins over a deeper one. -/
theorem C9_witness :
    StyleStack.get ⟨[[("width", StyleVal.int 5)], [("width", StyleVal.int 48)]]⟩ "width" =
      some (StyleVal.int 5) :=
  C9_style_lookup.1 [("width", StyleVal.int 5)] [[("width", StyleVal.int 48)]] "width"
    (StyleVal.int 5) (by decide)

/-- Abstract call into the line-composing sink: the operations the claim
quantifies over. -/
inductive LineOp where
  | opText (t : Option String)
  | opPre (t : Option String)
  | opStartInline
  | opStartBlock
  | opStartRight
deriving DecidableEq, Repr

/-- State effect of one sink call on the line serializer, matching the
line cases of the Serializer methods (which emit no printer operation). -/
def XmlLineSerializer.applyOp (ls : XmlLineSerializer) : LineOp → XmlLineSerializer
  | .opText t =>
    match textPayload t with
    | none => ls
    | some s => ls.colTxt s
  | .opPre t =>
    match t with
    | none => ls
    | some s => if s = "" then ls else ls.colTxt s
  | .opStartInline => ls.start_inline
  | .opStartBlock => ls.start_block
  | .opStartRight => ls.start_right

/-- Applies a sequence of sink calls in order. -/
def runLineOps (ls : XmlLineSerializer) : List LineOp → XmlLineSerializer
  | [] => ls
  | op :: rest => runLineOps (ls.applyOp op) rest

/-- Column invariant of the line serializer: the cursors count the buffer
lengths and never pass the (clamped) column widths. -/
def lineInv (ls : XmlLineSerializer) : Prop :=
  (ls.lbuffer.length : Int) = ls.clwidth ∧ (ls.rbuffer.length : Int) = ls.crwidth ∧
  ls.clwidth ≤ max 0 ls.lwidth ∧ ls.crwidth ≤ max 0 ls.rwidth

/-- Writing never changes the computed widths. -/
theorem colTxt_widths (ls : XmlLineSerializer) (s : String) :
    (ls.colTxt s).lwidth = ls.lwidth ∧ (ls.colTxt s).rwidth = ls.rwidth := by
  unfold XmlLineSerializer.colTxt
  split <;> split <;> exact ⟨rfl, rfl⟩

/-- Writing preserves the column invariant. -/
theorem colTxt_inv (ls : XmlLineSerializer) (s : String) (h : lineInv ls) :
    lineInv (ls.colTxt s) := by
  obtain ⟨h1, h2, h3, h4⟩ := h
  unfold XmlLineSerializer.colTxt
  split
  · split
    · rename_i hcl
      refine ⟨?_, h2, ?_, h4⟩
      · show ((ls.lbuffer ++ ⟨s.data.take (max 0 (ls.lwidth - ls.clwidth)).toNat⟩).length : Int) =
          ls.clwidth + ((s.data.take (max 0 (ls.lwidth - ls.clwidth)).toNat).length : Int)
        rw [String.length_append]
        have : (⟨s.data.take (max 0 (ls.lwidth - ls.clwidth)).toNat⟩ : String).length =
            (s.data.take (max 0 (ls.lwidth - ls.clwidth)).toNat).length := rfl
        rw [this]
        omega
      · show ls.clwidth + ((s.data.take (max 0 (ls.lwidth - ls.clwidth)).toNat).length : Int) ≤
          max 0 ls.lwidth
        rw [List.length_take]
        omega
    · exact ⟨h1, h2, h3, h4⟩
  · split
    · rename_i hcr
      refine ⟨h1, ?_, h3, ?_⟩
      · show ((ls.rbuffer ++ ⟨s.data.take (max 0 (ls.rwidth - ls.crwidth)).toNat⟩).length : Int) =
          ls.crwidth + ((s.data.take (max 0 (ls.rwidth - ls.crwidth)).toNat).length : Int)
        rw [String.length_append]
        have : (⟨s.data.take (max 0 (ls.rwidth - ls.crwidth)).toNat⟩ : String).length =
            (s.data.take (max 0 (ls.rwidth - ls.crwidth)).toNat).length := rfl
        rw [this]
        omega
      · show ls.crwidth + ((s.data.take (max 0 (ls.rwidth - ls.crwidth)).toNat).length : Int) ≤
          max 0 ls.rwidth
        rw [List.length_take]
        omega
    · exact ⟨h1, h2, h3, h4⟩

/-- The inter-token space preserves the column invariant. -/
theorem start_inline_inv (ls : XmlLineSerializer) (h : lineInv ls) :
    lineInv ls.start_inline := by
  unfold XmlLineSerializer.start_inline
  split
  · exact colTxt_inv ls " " h
  · exact h

/-- Every sink call preserves the column invariant. -/
theorem applyOp_inv (ls : XmlLineSerializer) (op : LineOp) (h : lineInv ls) :
    lineInv (ls.applyOp op) := by
  cases op with
  | opText t =>
    show lineInv (match textPayload t with
      | none => ls
      | some s => ls.colTxt s)
    cases textPayload t with
    | none => exact h
    | some s => exact colTxt_inv ls s h
  | opPre t =>
    show lineInv (match t with
      | none => ls
      | some s => if s = "" then ls else ls.colTxt s)
    cases t with
    | none => exact h
    | some s =>
      by_cases hs : s = ""
      · simp only [if_pos hs]
        exact h
      · simp only [if_neg hs]
        exact colTxt_inv ls s h
  | opStartInline => exact start_inline_inv ls h
  | opStartBlock => exact start_inline_inv ls h
  | opStartRight => exact h

/-- Every sink call leaves the computed widths unchanged. -/
theorem applyOp_widths (ls : XmlLineSerializer) (op : LineOp) :
    (ls.applyOp op).lwidth = ls.lwidth ∧ (ls.applyOp op).rwidth = ls.rwidth := by
  cases op with
  | opText t =>
    show ((match textPayload t with
        | none => ls
        | some s => ls.colTxt s).lwidth = ls.lwidth ∧
      (match textPayload t with
        | none => ls
        | some s => ls.colTxt s).rwidth = ls.rwidth)
    cases textPayload t with
    | none => exact ⟨rfl, rfl⟩
    | some s => exact colTxt_widths ls s
  | opPre t =>
    show ((match t with
        | none => ls
        | some s => if s = "" then ls else ls.colTxt s).lwidth = ls.lwidth ∧
      (match t with
        | none => ls
        | some s => if s = "" then ls else ls.colTxt s).rwidth = ls.rwidth)
    cases t with
    | none => exact ⟨rfl, rfl⟩
    | some s =>
      by_cases hs : s = ""
      · simp [hs]
      · simp only [if_neg hs]
        exact colTxt_widths ls s
  | opStartInline =>
    show (ls.start_inline.lwidth = ls.lwidth ∧ ls.start_inline.rwidth = ls.rwidth)
    unfold XmlLineSerializer.start_inline
    split
    · exact colTxt_widths ls _
    · exact ⟨rfl, rfl⟩
  | opStartBlock =>
    show (ls.start_inline.lwidth = ls.lwidth ∧ ls.start_inline.rwidth = ls.rwidth)
    unfold XmlLineSerializer.start_inline
    split
    · exact colTxt_widths ls _
    · exact ⟨rfl, rfl⟩
  | opStartRight => exact ⟨rfl, rfl⟩

/-- Any call sequence preserves the column invariant. -/
theorem runLineOps_inv (ops : List LineOp) :
    ∀ ls : XmlLineSerializer, lineInv ls → lineInv (runLineOps ls ops) := by
  induction ops with
  | nil => exact fun ls h => h
  | cons op rest ih => exact fun ls h => ih (ls.applyOp op) (applyOp_inv ls op h)

/-- Any call sequence leaves the computed widths unchanged. -/
theorem runLineOps_widths (ops : List LineOp) :
    ∀ ls : XmlLineSerializer,
      (runLineOps ls ops).lwidth = ls.lwidth ∧ (runLineOps ls ops).rwidth = ls.rwidth := by
  induction ops with
  | nil => exact fun ls => ⟨rfl, rfl⟩
  | cons op rest ih =>
    intro ls
    have h1 := ih (ls.applyOp op)
    have h2 := applyOp_widths ls op
    exact ⟨h1.1.trans h2.1, h1.2.trans h2.2⟩

/-- A freshly constructed line serializer satisfies the invariant. -/
theorem init_inv (ind tw w : Int) (rt : PyFloat) :
    lineInv (XmlLineSerializer.init ind tw w rt) :=
  ⟨rfl, rfl, le_max_left 0 _, le_max_left 0 _⟩

/-- With a nonnegative ratio the computed left width is nonnegative. -/
theorem init_lwidth_nonneg (ind tw w : Int) (rt : PyFloat) (hd : 0 < rt.den)
    (hn : 0 ≤ rt.num) : 0 ≤ (XmlLineSerializer.init ind tw w rt).lwidth := by
  show 0 ≤ Int.tdiv (max 0 (w - tw * ind) * rt.num) (1 * rt.den)
  apply Int.tdiv_nonneg
  · exact mul_nonneg (le_max_left 0 _) hn
  · rw [one_mul]
    omega

/-- C5 (confirmed): after any sequence of text, pre, start_inline,
start_block and start_right calls on a line serializer built with a
nonnegative ratio, neither buffer is longer than its computed column
width; a full column drops further writes entirely; the abstract calls
coincide with the Serializer methods on a line sink; and writing abcdef
into the three-wide left column of a width-six ratio-one-half line leaves
exactly abc. -/
theorem C5_truncation :
    (∀ (ind tw w : Int) (rt : PyFloat), 0 < rt.den → 0 ≤ rt.num → ∀ ops : List LineOp,
        ((runLineOps (XmlLineSerializer.init ind tw w rt) ops).lbuffer.length : Int) ≤
          (XmlLineSerializer.init ind tw w rt).lwidth ∧
        ((runLineOps (XmlLineSerializer.init ind tw w rt) ops).rbuffer.length : Int) ≤
          (XmlLineSerializer.init ind tw w rt).rwidth) ∧
    (∀ ls : XmlLineSerializer, ls.left = true → ls.lwidth ≤ ls.clwidth →
        ∀ s, (ls.colTxt s).lbuffer = ls.lbuffer) ∧
    (∀ ls : XmlLineSerializer, ls.left = false → ls.rwidth ≤ ls.crwidth →
        ∀ s, (ls.colTxt s).rbuffer = ls.rbuffer) ∧
    (∀ (ls : XmlLineSerializer) (t : Option String),
        Serializer.text (Serializer.line ls) t =
          (Serializer.line (ls.applyOp (LineOp.opText t)), []) ∧
        Serializer.pre (Serializer.line ls) t =
          (Serializer.line (ls.applyOp (LineOp.opPre t)), [])) ∧
    (∀ (ls : XmlLineSerializer) (sty : Option StyleStack),
        Serializer.start_inline (Serializer.line ls) sty =
          (Serializer.line (ls.applyOp LineOp.opStartInline), []) ∧
        Serializer.start_block (Serializer.line ls) sty =
          (Serializer.line (ls.applyOp LineOp.opStartBlock), []) ∧
        ls.applyOp LineOp.opStartRight = ls.start_right) ∧
    ((XmlLineSerializer.init 0 2 6 ⟨1, 2⟩).lwidth = 3 ∧
      (runLineOps (XmlLineSerializer.init 0 2 6 ⟨1, 2⟩)
        [LineOp.opText (some "abcdef")]).lbuffer = "abc") := by
  refine ⟨?_, ?_, ?_, ?_, ?_, by decide, by decide⟩
  · intro ind tw w rt hd hn ops
    have hinv := runLineOps_inv ops _ (init_inv ind tw w rt)
    have hw := runLineOps_widths ops (XmlLineSerializer.init ind tw w rt)
    obtain ⟨h1, h2, h3, h4⟩ := hinv
    have hl0 := init_lwidth_nonneg ind tw w rt hd hn
    have hr0 : 0 ≤ (XmlLineSerializer.init ind tw w rt).rwidth := le_max_left 0 _
    rw [hw.1] at h3
    rw [hw.2] at h4
    constructor
    · omega
    · omega
  · intro ls hl hfull s
    unfold XmlLineSerializer.colTxt
    rw [if_pos (by rw [hl]), if_neg (by omega)]
  · intro ls hl hfull s
    unfold XmlLineSerializer.colTxt
    rw [if_neg (by rw [hl]; exact Bool.false_ne_true), if_neg (by omega)]
  · intro ls t
    constructor
    · cases htp : textPayload t <;>
        simp [Serializer.text, XmlLineSerializer.applyOp, htp]
    · cases t with
      | none => rfl
      | some s =>
        by_cases hs : s = "" <;> simp [Serializer.pre, XmlLineSerializer.applyOp, hs]
  · exact fun ls sty => ⟨rfl, rfl, rfl⟩

/-- C5 witness: the invariant applied to the concrete six-wide line. -/
theorem C5_witness :
    ((runLineOps (XmlLineSerializer.init 0 2 6 ⟨1, 2⟩)
        [LineOp.opText (some "abcdef")]).lbuffer.length : Int) ≤
      (XmlLineSerializer.init 0 2 6 ⟨1, 2⟩).lwidth :=
  (C5_truncation.1 0 2 6 ⟨1, 2⟩ (by decide) (by decide) [LineOp.opText (some "abcdef")]).1

/-- Flattening a replicated replicate gives one multiplied replicate. -/
theorem flatten_replicate_replicate (n m : Nat) (c : Char) :
    (List.replicate n (List.replicate m c)).flatten = List.replicate (n * m) c := by
  induction n with
  | zero => simp
  | succ k ih =>
    rw [List.replicate_succ, List.flatten_cons, ih, ← List.replicate_add]
    congr 1
    ring

/-- Space repetition is a replicate of spaces. -/
theorem pyRepeat_space (k : Int) : pyRepeat " " k = ⟨List.replicate k.toNat ' '⟩ := by
  unfold pyRepeat
  have h2 := flatten_replicate_replicate k.toNat 1 ' '
  rw [Nat.mul_one] at h2
  exact congrArg String.mk h2

/-- The indentation prefix of get_line is indent times tabwidth spaces
whenever both are nonnegative. -/
theorem get_line_formula (ls : XmlLineSerializer) (hi : 0 ≤ ls.indent)
    (ht : 0 ≤ ls.tabwidth) :
    ls.get_line = pyRepeat " " (ls.indent * ls.tabwidth) ++ ls.lbuffer ++
      pyRepeat " " (ls.width - ls.clwidth - ls.crwidth) ++ ls.rbuffer := by
  unfold XmlLineSerializer.get_line
  have h1 : pyRepeat (pyRepeat " " ls.indent) ls.tabwidth =
      ⟨List.replicate (ls.tabwidth.toNat * ls.indent.toNat) ' '⟩ := by
    rw [pyRepeat_space]
    unfold pyRepeat
    exact congrArg String.mk
      (flatten_replicate_replicate ls.tabwidth.toNat ls.indent.toNat ' ')
  have h2 : pyRepeat " " (ls.indent * ls.tabwidth) =
      ⟨List.replicate (ls.indent * ls.tabwidth).toNat ' '⟩ := pyRepeat_space _
  have h3 : (ls.indent * ls.tabwidth).toNat = ls.tabwidth.toNat * ls.indent.toNat := by
    rcases Int.eq_ofNat_of_zero_le hi with ⟨a, ha⟩
    rcases Int.eq_ofNat_of_zero_le ht with ⟨b, hb⟩
    rw [ha, hb, ← Int.natCast_mul, Int.toNat_natCast, Int.toNat_natCast, Int.toNat_natCast]
    exact Nat.mul_comm a b
  rw [h1, h2, h3]

/-- The document, left and right elements of the concrete line test. -/
def c6line : Element :=
  Element.mk "line" [("width", "10")] none none
    [Element.mk "left" [] (some "AB") none [], Element.mk "right" [] (some "Z") none []]

/-- C6 (confirmed): get_line composes the indentation spaces, the left
buffer, the padding up to the effective width and the right buffer,
truncating nothing; walking a width-ten ratio-one-half line holding left
text AB and right text Z hands the outer sink the ten-character string
with AB left-aligned and Z right-aligned. -/
theorem C6_line_composition :
    (∀ ls : XmlLineSerializer, 0 ≤ ls.indent → 0 ≤ ls.tabwidth →
        ls.get_line = pyRepeat " " (ls.indent * ls.tabwidth) ++ ls.lbuffer ++
          pyRepeat " " (ls.width - ls.clwidth - ls.crwidth) ++ ls.rbuffer) ∧
    print_elem StyleStack.init (Serializer.xml [Mode.block]) c6line 0 =
      some (StyleStack.init, Serializer.xml [Mode.block],
        [POp.applyStyle StyleStack.init.get_styles, POp.text "AB       Z", POp.text "\n"]) ∧
    ("AB       Z" : String).length = 10 := by
  refine ⟨?_, by decide, by decide⟩
  exact fun ls hi ht => get_line_formula ls hi ht

/-- C6 witness: the composition formula applied to a freshly built
serializer with indent one. -/
theorem C6_witness :
    (XmlLineSerializer.init 1 2 10 ⟨1, 2⟩).get_line =
      pyRepeat " " ((XmlLineSerializer.init 1 2 10 ⟨1, 2⟩).indent *
          (XmlLineSerializer.init 1 2 10 ⟨1, 2⟩).tabwidth) ++
        (XmlLineSerializer.init 1 2 10 ⟨1, 2⟩).lbuffer ++
        pyRepeat " " ((XmlLineSerializer.init 1 2 10 ⟨1, 2⟩).width -
          (XmlLineSerializer.init 1 2 10 ⟨1, 2⟩).clwidth -
          (XmlLineSerializer.init 1 2 10 ⟨1, 2⟩).crwidth) ++
        (XmlLineSerializer.init 1 2 10 ⟨1, 2⟩).rbuffer :=
  C6_line_composition.1 (XmlLineSerializer.init 1 2 10 ⟨1, 2⟩) (by decide) (by decide)
